import Mathlib

/-!
Verification development for the esence/esense personal peer-to-peer agent
node.  The Python sources are shallowly embedded: Python dicts become Lean
structures whose optional keys are `Option` fields, file-backed state
becomes an explicit `EssenceStore` value threaded through the operations,
Python `float` literals are modelled as exact rationals (`ℚ`), and the
asyncio queues and event emission become explicit lists on a queue-state
record.  Each definition names the source function it embeds.
-/

/-- Association-list insert with Python-dict semantics: overwrite the value
of an existing key in place, otherwise append the new binding at the end. -/
def dictInsert {β : Type} (k : String) (v : β) : List (String × β) → List (String × β)
  | [] => [(k, v)]
  | (k₀, v₀) :: rest => if k₀ = k then (k, v) :: rest else (k₀, v₀) :: dictInsert k v rest

/-- Association-list removal of the first binding of a key, embedding
`dict.pop` on a dict whose keys are unique. -/
def dictErase {β : Type} (k : String) : List (String × β) → List (String × β)
  | [] => []
  | (k₀, v₀) :: rest => if k₀ = k then rest else (k₀, v₀) :: dictErase k rest

/-- A persisted message record, as the plain dict that `MessageQueue` works
on (`src/esense/core/queue.py`).  Keys the queue reads with a default are
given that default directly: `proposed_reply` is read only via
`message.get("proposed_reply", "")`, so a missing key and `""` coincide. -/
structure Msg where
  thread_id : String
  from_did : String
  content : String
  status : String
  proposed_reply : String := ""
  deriving Repr, DecidableEq

/-- A peer record from `peers.json` (`src/esense/protocol/peers.py`).
Optional dict keys are `Option` fields so that the differing `.get`
defaults used at each call site stay visible. -/
structure Peer where
  did : String
  trust_score : Option ℚ := none
  blocked : Option Bool := none
  message_count : Option Nat := none
  last_seen : Option String := none
  added_at : String := ""
  updated_at : String := ""
  deriving Repr, DecidableEq

/-- One entry of `corrections.log` (`EssenceStore.append_correction`). -/
structure Correction where
  original : String
  edited : String
  thread_id : String
  from_did : String
  timestamp : String
  deriving Repr, DecidableEq

/-- The contents of `budget.json`.  Every consumer reads it with
`dict.get` and a default, so all fields are optional. -/
structure Budget where
  monthly_limit_tokens : Option Nat := none
  used_tokens : Option Nat := none
  calls_total : Option Nat := none
  autonomy_threshold : Option ℚ := none
  last_reset : Option String := none
  deriving Repr, DecidableEq

/-- The persisted state of one node's essence store
(`src/esence/essence/store.py`): thread files under `threads/`, the
corrections journal, `peers.json`, `budget.json`, plus the mood and
auto-approve settings whose accessors the queue calls. -/
structure EssenceStore where
  mood : String := "moderate"
  auto_approve : Bool := false
  peers : List Peer := []
  budget : Budget := {}
  corrections : List Correction := []
  threads : List (String × List Msg) := []
  deriving Repr, DecidableEq

/-- `EssenceStore.read_thread`: a missing thread file reads as `[]`. -/
def EssenceStore.read_thread (st : EssenceStore) (thread_id : String) : List Msg :=
  (st.threads.lookup thread_id).getD []

/-- `EssenceStore.write_thread`: whole-file replacement of one thread. -/
def EssenceStore.write_thread (st : EssenceStore) (thread_id : String)
    (messages : List Msg) : EssenceStore :=
  { st with threads := dictInsert thread_id messages st.threads }

/-- `EssenceStore.append_to_thread`: read the thread, append, write back. -/
def EssenceStore.append_to_thread (st : EssenceStore) (thread_id : String)
    (message : Msg) : EssenceStore :=
  st.write_thread thread_id (st.read_thread thread_id ++ [message])

/-- `EssenceStore.append_correction`: append one JSONL record.  The queue
always supplies a timestamp, so the `setdefault` branch is not taken. -/
def EssenceStore.append_correction (st : EssenceStore) (c : Correction) : EssenceStore :=
  { st with corrections := st.corrections ++ [c] }

/-- `EssenceStore.read_corrections`. -/
def EssenceStore.read_corrections (st : EssenceStore) : List Correction :=
  st.corrections

/-- `EssenceStore.read_peers`. -/
def EssenceStore.read_peers (st : EssenceStore) : List Peer :=
  st.peers

/-- `EssenceStore.upsert_peer`: replace the first record with the same
`did`, else append.  (The caller `PeerManager.add_or_update` already merged
the old record into the new one, and the structure has a fixed field set,
so the dict merge `{**p, **peer}` is the new record itself.) -/
def upsertPeerList (peer : Peer) : List Peer → List Peer
  | [] => [peer]
  | p :: rest => if p.did = peer.did then peer :: rest else p :: upsertPeerList peer rest

def EssenceStore.upsert_peer (st : EssenceStore) (peer : Peer) : EssenceStore :=
  { st with peers := upsertPeerList peer st.peers }

/-- `EssenceStore.read_budget`: a pure file read.  The source performs no
monthly-reset check and no write here (`store.py` lines 151-155). -/
def EssenceStore.read_budget (st : EssenceStore) : Budget :=
  st.budget

/-- `EssenceStore.is_over_budget` (`store.py` lines 167-171): compares
`used_tokens` (default 0) against `monthly_limit_tokens` (default
500000).  It only calls `read_budget`; it never consults the clock and
never writes `budget.json`, hence the state-free signature. -/
def EssenceStore.is_over_budget (st : EssenceStore) : Bool :=
  decide (st.budget.monthly_limit_tokens.getD 500000 ≤ st.budget.used_tokens.getD 0)

/-- Modelled from the spec: `get_mood` is called by the queue but its
definition (`esense/essence/store.py`) is not under `src/`; the spec
lists "get/set mood" among the store operations, so it is a plain read of
the persisted mood. -/
def EssenceStore.get_mood (st : EssenceStore) : String :=
  st.mood

/-- Modelled from the spec: `get_auto_approve` is called by the queue but
its definition (`esense/essence/store.py`) is not under `src/`; the spec
lists "get/set auto-approve flag" among the store operations, so it is a
plain read of the persisted flag. -/
def EssenceStore.get_auto_approve (st : EssenceStore) : Bool :=
  st.auto_approve

/-- The `MessageStatus` enum of `src/esence/protocol/message.py` (lines
21-27).  It has exactly five members; the queue and the node, as well as
the test suite, additionally reference an `AUTO_APPROVED` member that this
enum does not define. -/
inductive MessageStatus where
  | pending_human_review
  | approved
  | sent
  | answered
  | rejected
  deriving Repr, DecidableEq

/-- The string value of each `MessageStatus` member (it is a `str` enum
with `use_enum_values=True`, so messages persist these strings). -/
def MessageStatus.value : MessageStatus → String
  | .pending_human_review => "pending_human_review"
  | .approved => "approved"
  | .sent => "sent"
  | .answered => "answered"
  | .rejected => "rejected"

/-- An event emitted through `MessageQueue._emit`, with the data fields
each call site passes. -/
inductive Event where
  | rejected (thread_id : String)
  | inbound_message (message : Msg)
  | outbound_queued (message : Msg)
  | status_changed (thread_id : String) (status : String)
  | correction_logged (count : Nat) (thread_id : String)
  deriving Repr, DecidableEq

/-- The state of a `MessageQueue` (`src/esense/core/queue.py`): the store,
the two asyncio channels as lists (new items appended at the tail), the
in-memory pending map, and the trace of emitted events. -/
structure MessageQueue where
  store : EssenceStore
  inbound : List Msg := []
  outbound : List Msg := []
  pending : List (String × Msg) := []
  events : List Event := []
  deriving Repr, DecidableEq

/-- `MessageQueue.enqueue_inbound` (queue.py lines 52-111).  The incoming
dict always carries a `thread_id` here (the source fills a fresh UUID for
a missing key before anything else).  `calculate_maturity` abstracts
`esense.essence.maturity.calculate_maturity`, whose transcendental sigmoid
is evaluated outside this embedding; the queue only compares its value
against the threshold.  Python float literals (0.3, 0.5, 0.6) are the
exact rationals 3/10, 1/2, 3/5.  The status strings written are the values
of the `str`-enum members the source names (`MessageStatus.REJECTED`,
`AUTO_APPROVED`, `PENDING_HUMAN_REVIEW`).  The function is split into the
locals the source computes (queue.py lines 63-68) followed by the routing
itself.

`sender_peer` of queue.py line 64: first stored peer whose `did` equals
the sender's. -/
def senderPeer (st : EssenceStore) (from_did : String) : Option Peer :=
  st.read_peers.find? (fun p => p.did == from_did)

/-- The guard `sender_peer and sender_peer.get("blocked")` of queue.py
line 68. -/
def senderBlocked (st : EssenceStore) (from_did : String) : Bool :=
  match senderPeer st from_did with
  | some p => p.blocked.getD false
  | none => false

/-- `peer_trust` of queue.py line 65:
`sender_peer.get("trust_score", 0.0) if sender_peer else 0.0`. -/
def senderTrust (st : EssenceStore) (from_did : String) : ℚ :=
  match senderPeer st from_did with
  | some p => p.trust_score.getD 0
  | none => 0

/-- The status cascade of queue.py lines 82-102, reached once the blocked
and dnd gates have been passed: global auto-approve flag, then the
`available` rule (trust ≥ 0.3), then the `moderate` rule (maturity ≥
autonomy threshold, default 0.6, and trust ≥ 0.5), else pending. -/
def admittedStatus (calculate_maturity : EssenceStore → ℚ) (st : EssenceStore)
    (from_did : String) : String :=
  if st.get_auto_approve then "auto_approved"
  else if st.get_mood = "available" ∧ senderTrust st from_did ≥ 3/10 then "auto_approved"
  else if st.get_mood = "moderate" then
    if calculate_maturity st ≥ st.read_budget.autonomy_threshold.getD (3/5) ∧
        senderTrust st from_did ≥ 1/2 then "auto_approved"
    else "pending_human_review"
  else "pending_human_review"

def MessageQueue.enqueue_inbound (calculate_maturity : EssenceStore → ℚ)
    (q : MessageQueue) (message : Msg) : MessageQueue :=
  let tid := message.thread_id
  if senderBlocked q.store message.from_did then
    let m := { message with status := "rejected" }
    { q with store := q.store.append_to_thread tid m,
             events := q.events ++ [Event.rejected tid] }
  else if q.store.get_mood = "dnd" then
    let m := { message with status := "rejected" }
    { q with store := q.store.append_to_thread tid m,
             events := q.events ++ [Event.rejected tid] }
  else
    let m := { message with
               status := admittedStatus calculate_maturity q.store message.from_did }
    { q with store := q.store.append_to_thread tid m,
             pending := dictInsert tid m q.pending,
             inbound := q.inbound ++ [m],
             events := q.events ++ [Event.inbound_message m] }

/-- `MessageQueue.peek_pending`: the pending-map values whose status is
`pending_human_review`. -/
def MessageQueue.peek_pending (q : MessageQueue) : List Msg :=
  (q.pending.map Prod.snd).filter (fun m => m.status == "pending_human_review")

/-- `MessageQueue.get_pending`. -/
def MessageQueue.get_pending (q : MessageQueue) (thread_id : String) : Option Msg :=
  q.pending.lookup thread_id

/-- `MessageQueue.mark_status` (queue.py lines 144-155): update the
pending entry if present, overwrite the status of every entry of the
thread file whose `thread_id` field matches, rewrite the file, emit
`status_changed`. -/
def MessageQueue.mark_status (q : MessageQueue) (thread_id : String)
    (status : String) : MessageQueue :=
  let pending := match q.pending.lookup thread_id with
    | some m => dictInsert thread_id { m with status := status } q.pending
    | none => q.pending
  let messages := q.store.read_thread thread_id
  let rewritten := messages.map
    (fun m => if m.thread_id = thread_id then { m with status := status } else m)
  { q with pending := pending,
           store := q.store.write_thread thread_id rewritten,
           events := q.events ++ [Event.status_changed thread_id status] }

/-- `MessageQueue.enqueue_outbound` (queue.py lines 128-134): persist the
message to its thread file again, push it on the outbound channel, emit
`outbound_queued`. -/
def MessageQueue.enqueue_outbound (q : MessageQueue) (message : Msg) : MessageQueue :=
  { q with store := q.store.append_to_thread message.thread_id message,
           outbound := q.outbound ++ [message],
           events := q.events ++ [Event.outbound_queued message] }

/-- `MessageQueue.approve` (queue.py lines 157-195).  `now` stands for the
wall-clock timestamp taken inside the function.  Note the source guards
the correction on `if proposed_reply:` and the content update on
`if final_reply:`, i.e. on non-emptiness of those strings. -/
def MessageQueue.approve (now : String) (q : MessageQueue) (thread_id : String)
    (edited_reply : Option String) : Option Msg × MessageQueue :=
  match q.pending.lookup thread_id with
  | none => (none, q)
  | some message =>
    let q1 := { q with pending := dictErase thread_id q.pending }
    let proposed_reply := message.proposed_reply
    let final_reply := edited_reply.getD proposed_reply
    let q2 :=
      if proposed_reply ≠ "" then
        let st := q1.store.append_correction
          { original := proposed_reply, edited := final_reply,
            thread_id := thread_id, from_did := message.from_did, timestamp := now }
        { q1 with store := st,
                  events := q1.events ++
                    [Event.correction_logged st.read_corrections.length thread_id] }
      else q1
    let message1 := if final_reply ≠ "" then { message with content := final_reply }
      else message
    let message2 := { message1 with status := "approved" }
    let q3 := q2.mark_status thread_id "approved"
    let q4 := q3.enqueue_outbound message2
    (some message2, q4)

/-- The optional keyword arguments of `PeerManager.add_or_update`
(`src/esense/protocol/peers.py`); a `some` field is a keyword that was
passed and overwrites the stored value in the dict merge. -/
structure PeerUpdate where
  trust_score : Option ℚ := none
  message_count : Option Nat := none
  last_seen : Option String := none
  deriving Repr, DecidableEq

/-- `PeerManager.get_peer`: first record whose `did` matches. -/
def PeerManager.get_peer (st : EssenceStore) (did : String) : Option Peer :=
  st.read_peers.find? (fun p => p.did == did)

/-- The dict merge `{**existing, **kwargs, "did": did, "updated_at": now}`
performed by `add_or_update`. -/
def Peer.applyUpdate (p : Peer) (u : PeerUpdate) (now : String) : Peer :=
  { p with
    trust_score := match u.trust_score with
      | some v => some v
      | none => p.trust_score,
    message_count := match u.message_count with
      | some v => some v
      | none => p.message_count,
    last_seen := match u.last_seen with
      | some v => some v
      | none => p.last_seen,
    updated_at := now }

/-- `PeerManager.add_or_update` (peers.py lines 41-57): merge into the
existing record, or start from the defaults dict (trust 0.5, counter 0,
`last_seen: None`) with the keywords merged over it; persist via
`upsert_peer`; return the updated record. -/
def PeerManager.add_or_update (now : String) (st : EssenceStore) (did : String)
    (u : PeerUpdate) : Peer × EssenceStore :=
  match PeerManager.get_peer st did with
  | some existing =>
    let peer := existing.applyUpdate u now
    (peer, st.upsert_peer peer)
  | none =>
    let base : Peer := { did := did, trust_score := some (1/2), added_at := now,
                         updated_at := now, message_count := some 0, last_seen := none }
    let peer := base.applyUpdate u now
    (peer, st.upsert_peer peer)

/-- `PeerManager.adjust_trust` (peers.py lines 67-75): create the peer if
unknown, add `delta` to the stored trust (default 0.5), clamp to [0, 1],
store the result; return the new score beside the new state. -/
def PeerManager.adjust_trust (now : String) (st : EssenceStore) (did : String)
    (delta : ℚ) : EssenceStore × ℚ :=
  let found := PeerManager.get_peer st did
  let peerAndState : Peer × EssenceStore := match found with
    | some p => (p, st)
    | none => PeerManager.add_or_update now st did {}
  let current := peerAndState.1.trust_score.getD (1/2)
  let new_score := max 0 (min 1 (current + delta))
  let upd := PeerManager.add_or_update now peerAndState.2 did { trust_score := some new_score }
  (upd.2, new_score)

/-- `PeerManager.record_interaction` (peers.py lines 77-87): create the
peer if unknown, bump the message counter, stamp `last_seen`, and adjust
trust by +0.02 (= 1/50) on success or -0.05 (= 1/20) on failure, clamped
to [0, 1]. -/
def PeerManager.record_interaction (now : String) (st : EssenceStore) (did : String)
    (successful : Bool) : EssenceStore :=
  let found := PeerManager.get_peer st did
  let peerAndState : Peer × EssenceStore := match found with
    | some p => (p, st)
    | none => PeerManager.add_or_update now st did {}
  let peer := peerAndState.1
  let count := peer.message_count.getD 0 + 1
  let delta : ℚ := if successful then 1/50 else -(1/20)
  let upd := PeerManager.add_or_update now peerAndState.2 did
    { message_count := some count,
      last_seen := some now,
      trust_score := some (max 0 (min 1 (peer.trust_score.getD (1/2) + delta))) }
  upd.2

/-- One call of the two trust-mutating peer operations. -/
inductive PeerOp where
  | record (did : String) (successful : Bool) (now : String)
  | adjust (did : String) (delta : ℚ) (now : String)

/-- Run one peer operation against the store. -/
def applyPeerOp (st : EssenceStore) : PeerOp → EssenceStore
  | .record did successful now => PeerManager.record_interaction now st did successful
  | .adjust did delta now => (PeerManager.adjust_trust now st did delta).1

/-- Run a finite sequence of peer operations. -/
def applyPeerOps (st : EssenceStore) (ops : List PeerOp) : EssenceStore :=
  ops.foldl applyPeerOp st

/-- Characters admitted by `[a-zA-Z0-9._:%-]` (the host segment of the
DID regex in `src/esense/protocol/transport.py` line 24). -/
def isDidHostChar (c : Char) : Bool :=
  c.isAlpha || c.isDigit || c = '.' || c = '_' || c = ':' || c = '%' || c = '-'

/-- Characters admitted by `[a-zA-Z0-9_-]` (the name segment). -/
def isDidNameChar (c : Char) : Bool :=
  c.isAlpha || c.isDigit || c = '_' || c = '-'

/-- Full match of the regex body `did:wba:[a-zA-Z0-9._:%-]+:[a-zA-Z0-9_-]+`
against a character list.  Such a match splits the text after `did:wba:`
at a colon with a nonempty all-host-chars part on the left and a nonempty
all-name-chars part on the right; since the name class contains no colon,
the only candidate split point is the last colon, which this decision
procedure checks. -/
def didRegexCore (cs : List Char) : Bool :=
  if cs.take 8 = "did:wba:".toList then
    let rest := (cs.drop 8).reverse
    let nameRev := rest.takeWhile (fun c => c ≠ ':')
    match rest.dropWhile (fun c => c ≠ ':') with
    | [] => false
    | _ :: hostRev =>
      decide (hostRev ≠ []) && hostRev.all isDidHostChar &&
        decide (nameRev ≠ []) && nameRev.all isDidNameChar
  else false

/-- `_DID_RE.match` with pattern `^did:wba:[a-zA-Z0-9._:%-]+:[a-zA-Z0-9_-]+$`
(`src/esense/protocol/transport.py` lines 24 and 129).  In Python's `re`
(without MULTILINE) the anchor `$` matches at the end of the string or
just before one newline at the very end, so `re.match` also accepts the
regex body followed by a single trailing `'\n'`. -/
def didRegexMatch (s : String) : Bool :=
  didRegexCore s.toList ||
    (match s.toList.getLast? with
     | some c => decide (c = '\n') && didRegexCore s.toList.dropLast
     | none => false)

/-- The identifier regex exactly as the spec and the claim write it —
a full match of `did:wba:[A-Za-z0-9._:%-]+:[A-Za-z0-9_-]+` with no
trailing-newline allowance — for comparison with the code's
`_DID_RE.match`. -/
def specDidRegexMatch (s : String) : Bool :=
  didRegexCore s.toList

/-- The fields of a parsed inbound message that `receive_message`
(`src/esense/protocol/transport.py` lines 115-170) inspects before the
remote-key verification.  `timestamp` is the result of
`datetime.fromisoformat` modelled as epoch seconds, `none` standing for an
unparseable string (the `except` branch); `signature` is `None` or the
carried string. -/
structure TransportMsg where
  from_did : String
  timestamp : Option Int
  signature : Option String := none
  deriving Repr, DecidableEq

/-- The `valid` component returned by `receive_message`: DID format check,
freshness window of 300 seconds on `|now - timestamp|`, non-empty
signature, then the resolution-and-verify block, abstracted as
`verify_remote` (its exceptions and `False` results are that function
returning `false`). -/
def receive_message_valid (verify_remote : TransportMsg → Bool) (now : Int)
    (m : TransportMsg) : Bool :=
  if ¬ didRegexMatch m.from_did then false
  else match m.timestamp with
    | none => false
    | some t =>
      if (now - t).natAbs > 300 then false
      else if m.signature.getD "" = "" then false
      else verify_remote m

/-- The admission gate of `POST /anp/message`
(`src/esense/interface/server.py`): the message reaches
`enqueue_inbound` iff the signature verdict was valid or the
`dev_skip_sig` development flag is set; otherwise HTTP 401 is raised. -/
def receive_anp_message_admits (dev_skip_sig : Bool) (valid_sig : Bool) : Bool :=
  valid_sig || dev_skip_sig

/-- Claim-side restatement of the admission cascade exactly as the spec
(§4.7) words it, for comparison with `MessageQueue.enqueue_inbound`. -/
def admissionRuleStatus (blocked : Bool) (mood : String) (autoApprove : Bool)
    (trust maturity threshold : ℚ) : String :=
  if blocked then "rejected"
  else if mood = "dnd" then "rejected"
  else if autoApprove then "auto_approved"
  else if mood = "available" ∧ trust ≥ 3/10 then "auto_approved"
  else if mood = "moderate" then
    if maturity ≥ threshold ∧ trust ≥ 1/2 then "auto_approved"
    else "pending_human_review"
  else "pending_human_review"

/-- The base64url alphabet character for a sextet, as used by
`base64.urlsafe_b64encode` inside `_b64url`
(`src/esence/core/identity.py` lines 26-28). -/
def b64Char (n : Nat) : Char :=
  if n < 26 then Char.ofNat (65 + n)
  else if n < 52 then Char.ofNat (97 + (n - 26))
  else if n < 62 then Char.ofNat (48 + (n - 52))
  else if n = 62 then '-'
  else '_'

/-- Inverse alphabet lookup for `base64.urlsafe_b64decode`; a character
outside the alphabet yields `none`. -/
def b64Sextet (c : Char) : Option Nat :=
  if 'A' ≤ c ∧ c ≤ 'Z' then some (c.toNat - 65)
  else if 'a' ≤ c ∧ c ≤ 'z' then some (c.toNat - 97 + 26)
  else if '0' ≤ c ∧ c ≤ '9' then some (c.toNat - 48 + 52)
  else if c = '-' then some 62
  else if c = '_' then some 63
  else none

/-- base64url encoding of a byte list with the padding already stripped,
i.e. `base64.urlsafe_b64encode(data).rstrip(b"=")`: full 3-byte groups
give 4 characters, a 1-byte tail gives 2 and a 2-byte tail gives 3. -/
def b64EncodeBytes : List Nat → List Char
  | [] => []
  | [b1] => [b64Char (b1 / 4), b64Char (b1 % 4 * 16)]
  | [b1, b2] => [b64Char (b1 / 4), b64Char (b1 % 4 * 16 + b2 / 16), b64Char (b2 % 16 * 4)]
  | b1 :: b2 :: b3 :: rest =>
    b64Char (b1 / 4) :: b64Char (b1 % 4 * 16 + b2 / 16) ::
      b64Char (b2 % 16 * 4 + b3 / 64) :: b64Char (b3 % 64) :: b64EncodeBytes rest

/-- base64url decoding of an unpadded character list, embedding
`_b64url_decode` (re-pad, then `base64.urlsafe_b64decode`): groups of 4
characters give 3 bytes, a 3-character tail gives 2 bytes, a 2-character
tail gives 1 byte, and a 1-character tail (impossible padding) is the
`binascii.Error` case, which the callers turn into failure. -/
def b64DecodeChars : List Char → Option (List Nat)
  | [] => some []
  | [c1, c2] => do
      let s1 ← b64Sextet c1
      let s2 ← b64Sextet c2
      pure [s1 * 4 + s2 / 16]
  | [c1, c2, c3] => do
      let s1 ← b64Sextet c1
      let s2 ← b64Sextet c2
      let s3 ← b64Sextet c3
      pure [s1 * 4 + s2 / 16, s2 % 16 * 16 + s3 / 4]
  | c1 :: c2 :: c3 :: c4 :: rest => do
      let s1 ← b64Sextet c1
      let s2 ← b64Sextet c2
      let s3 ← b64Sextet c3
      let s4 ← b64Sextet c4
      let tail ← b64DecodeChars rest
      pure ((s1 * 4 + s2 / 16) :: (s2 % 16 * 16 + s3 / 4) :: (s3 % 4 * 64 + s4) :: tail)
  | [_] => none

/-- `_b64url`: bytes to base64url text without padding. -/
def b64url (data : List Nat) : String :=
  ⟨b64EncodeBytes data⟩

/-- `_b64url_decode`: base64url text back to bytes, `none` on failure. -/
def b64urlDecode (s : String) : Option (List Nat) :=
  b64DecodeChars s.toList

/-- UTF-8 encoding of one character, as `str.encode()` produces it. -/
def utf8EncodeChar (c : Char) : List Nat :=
  let n := c.toNat
  if n < 128 then [n]
  else if n < 2048 then [192 + n / 64, 128 + n % 64]
  else if n < 65536 then [224 + n / 4096, 128 + n / 64 % 64, 128 + n % 64]
  else [240 + n / 262144, 128 + n / 4096 % 64, 128 + n / 64 % 64, 128 + n % 64]

/-- UTF-8 encoding of a string (`str.encode()`). -/
def utf8Encode (s : String) : List Nat :=
  (s.toList.map utf8EncodeChar).flatten

/-- Lower-case hex digit, for JSON control-character escapes. -/
def hexDigit (n : Nat) : Char :=
  if n < 10 then Char.ofNat (48 + n) else Char.ofNat (87 + n)

/-- The escape `json.dumps` (with `ensure_ascii=False`) applies to one
character inside a string literal. -/
def jsonEscapeChar (c : Char) : List Char :=
  if c = '"' then ['\\', '"']
  else if c = '\\' then ['\\', '\\']
  else if c = '\n' then ['\\', 'n']
  else if c = '\t' then ['\\', 't']
  else if c = '\r' then ['\\', 'r']
  else if c.toNat = 8 then ['\\', 'b']
  else if c.toNat = 12 then ['\\', 'f']
  else if c.toNat < 32 then ['\\', 'u', '0', '0', hexDigit (c.toNat / 16), hexDigit (c.toNat % 16)]
  else [c]

/-- A JSON string literal for `s`. -/
def jsonString (s : String) : String :=
  "\"" ++ String.mk (s.toList.map jsonEscapeChar).flatten ++ "\""

/-- Insertion into a key-sorted association list (string keys compare by
code point, as Python sorts them under `sort_keys=True`). -/
def insertSortedByKey (kv : String × String) :
    List (String × String) → List (String × String)
  | [] => [kv]
  | x :: rest => if kv.1 ≤ x.1 then kv :: x :: rest else x :: insertSortedByKey kv rest

/-- Sort an association list by key. -/
def sortByKey (l : List (String × String)) : List (String × String) :=
  l.foldr insertSortedByKey []

/-- JSON object text for the free-form `metadata` map, keys sorted. -/
def jsonMetadata (l : List (String × String)) : String :=
  "\x7b" ++ String.intercalate ", "
    ((sortByKey l).map (fun kv => jsonString kv.1 ++ ": " ++ jsonString kv.2)) ++ "\x7d"

/-- The base message record of `src/esence/protocol/message.py`
(`EsenceMessage`): `type` and `status` are held as their `str`-enum values
(`use_enum_values=True`), `metadata` as a string-valued map. -/
structure EsenceMessage where
  esence_version : String := "0.2"
  type : String
  thread_id : String
  from_did : String
  to_did : String
  content : String
  status : String := "pending_human_review"
  timestamp : String
  signature : Option String := none
  metadata : List (String × String) := []
  deriving Repr, DecidableEq

/-- `EsenceMessage.signable_bytes` (message.py lines 53-58):
`json.dumps(model_dump(exclude={"signature"}), sort_keys=True,
ensure_ascii=False).encode()`.  The nine remaining keys are emitted in
sorted order with the default `", "` / `": "` separators, and the result
is UTF-8 encoded. -/
def EsenceMessage.signable_bytes (m : EsenceMessage) : List Nat :=
  utf8Encode ("\x7b" ++ String.intercalate ", "
    [jsonString "content" ++ ": " ++ jsonString m.content,
     jsonString "esence_version" ++ ": " ++ jsonString m.esence_version,
     jsonString "from_did" ++ ": " ++ jsonString m.from_did,
     jsonString "metadata" ++ ": " ++ jsonMetadata m.metadata,
     jsonString "status" ++ ": " ++ jsonString m.status,
     jsonString "thread_id" ++ ": " ++ jsonString m.thread_id,
     jsonString "timestamp" ++ ": " ++ jsonString m.timestamp,
     jsonString "to_did" ++ ": " ++ jsonString m.to_did,
     jsonString "type" ++ ": " ++ jsonString m.type] ++ "\x7d")

/-- Modelled from the spec: the `cryptography` package's Ed25519 primitive
is external to the repository, so it is abstracted as an idealized
deterministic signature scheme — a private key carries the raw public-key
bytes it determines, a raw signature over `data` is those public bytes
followed by `data`, and raw verification checks exactly that shape.  This
captures the library contract the spec states ("verify(pub(i), bytes,
sign(i, bytes)) = true") without the underlying number theory. -/
structure Ed25519PrivateKey where
  public_bytes : List Nat
  deriving Repr, DecidableEq

/-- Idealized `Ed25519PrivateKey.sign` of the library: raw signature bytes. -/
def ed25519Sign (key : Ed25519PrivateKey) (data : List Nat) : List Nat :=
  key.public_bytes ++ data

/-- Idealized `Ed25519PublicKey.verify` of the library, as a boolean. -/
def ed25519Verify (public_bytes data sig : List Nat) : Bool :=
  sig == public_bytes ++ data

/-- `Identity` (`src/esence/core/identity.py`): the key pair plus DID. -/
structure Identity where
  private_key : Ed25519PrivateKey
  did : String
  deriving Repr, DecidableEq

/-- `Identity.sign` (identity.py lines 118-121): raw-sign, then base64url. -/
def Identity.sign (i : Identity) (data : List Nat) : String :=
  b64url (ed25519Sign i.private_key data)

/-- `Identity.public_key_b64` (identity.py lines 148-151): the raw public
bytes in base64url. -/
def Identity.public_key_b64 (i : Identity) : String :=
  b64url i.private_key.public_bytes

/-- `Identity.verify_with_public_key` (identity.py lines 132-142): decode
the public key and the signature from base64url, then raw-verify; any
decoding or verification failure is `false`, never an exception. -/
def Identity.verify_with_public_key (public_key_b64 : String) (data : List Nat)
    (signature_b64 : String) : Bool :=
  match b64urlDecode public_key_b64, b64urlDecode signature_b64 with
  | some pub, some sig => ed25519Verify pub data sig
  | _, _ => false

/-- `final_reply` as computed inside `approve` (queue.py line 168):
the edit if one was passed, else the proposed reply. -/
def approveFinalReply (m : Msg) (edited_reply : Option String) : String :=
  edited_reply.getD m.proposed_reply

/-- The message `approve` returns and pushes outbound: content replaced
by `final_reply` only when that string is non-empty (queue.py lines
188-192), status set to approved. -/
def approvedMessage (m : Msg) (edited_reply : Option String) : Msg :=
  if approveFinalReply m edited_reply ≠ "" then
    { m with content := approveFinalReply m edited_reply, status := "approved" }
  else
    { m with status := "approved" }

/-- The correction record `approve` appends when the proposed reply is
non-empty (queue.py lines 171-179). -/
def approvalCorrection (now thread_id : String) (m : Msg)
    (edited_reply : Option String) : Correction :=
  { original := m.proposed_reply, edited := approveFinalReply m edited_reply,
    thread_id := thread_id, from_did := m.from_did, timestamp := now }

/-- A concrete identity for evaluating the signing round trip. -/
def sampleIdentity : Identity :=
  { private_key := { public_bytes := [7, 250, 33] }, did := "did:wba:localhost:alice" }

/-- A concrete thread message for evaluating the signing round trip. -/
def sampleMessage : EsenceMessage :=
  { type := "thread_message", thread_id := "t1",
    from_did := "did:wba:localhost:alice", to_did := "did:wba:localhost:bob",
    content := "Hola", timestamp := "2026-02-21T00:00:00+00:00" }

/-- A concrete pending inbound message carrying a proposed reply. -/
def pendingMsg : Msg :=
  { thread_id := "t0", from_did := "did:wba:localhost:peer", content := "Hola",
    status := "pending_human_review", proposed_reply := "propuesta" }

/-- A queue whose store has persisted `pendingMsg` in thread `t0` and
whose pending map holds it, as after admission plus annotation. -/
def pendingQueue : MessageQueue :=
  { store := { threads := [("t0", [pendingMsg])] }, pending := [("t0", pendingMsg)] }

/-- A concrete incoming message dict, before classification. -/
def inboundMsg : Msg :=
  { thread_id := "t0", from_did := "did:wba:localhost:peer", content := "Hola",
    status := "" }

/-- A queue over a store with the global auto-approve flag set. -/
def autoApproveQueue : MessageQueue :=
  { store := { auto_approve := true } }

/-- The budget state of end-to-end scenario 6 (and of the repo's own
`test_budget_monthly_reset`): counters well past the limit, `last_reset`
in a past UTC month. -/
def staleBudgetStore : EssenceStore :=
  { budget :=
    { monthly_limit_tokens := some 500000,
      used_tokens := some 999999,
      calls_total := some 100,
      last_reset := some "2020-01-01T00:00:00+00:00" } }

/-- A queue over a store whose owner is absent (mood `absent`, everything
else at its defaults). -/
def absentMoodQueue : MessageQueue :=
  { store := { mood := "absent" } }

/-- The invariant the spec states for peer records: every stored trust
score lies in [0, 1]. -/
def trustWF (peers : List Peer) : Prop :=
  ∀ p ∈ peers, ∀ t, p.trust_score = some t → 0 ≤ t ∧ t ≤ 1

/-- A store holding one peer record without a stored trust score. -/
def trustedPeer : Peer :=
  { did := "did:wba:localhost:trusted" }

/-- A store whose peer table holds exactly `trustedPeer`. -/
def trustedStore : EssenceStore :=
  { peers := [trustedPeer] }

theorem dictInsert_lookup_self {β : Type} (k : String) (v : β) (l : List (String × β)) :
    (dictInsert k v l).lookup k = some v := by
  induction l with
  | nil => simp [dictInsert]
  | cons kv rest ih =>
    obtain ⟨k₀, v₀⟩ := kv
    by_cases h : k₀ = k
    · simp [dictInsert, h]
    · have hne : (k == k₀) = false := beq_eq_false_iff_ne.mpr (Ne.symm h)
      simp [dictInsert, h, List.lookup, ih, hne]

theorem dictInsert_lookup_ne {β : Type} (k k₁ : String) (v : β) (l : List (String × β))
    (h : k₁ ≠ k) : (dictInsert k v l).lookup k₁ = l.lookup k₁ := by
  induction l with
  | nil => simp [dictInsert, h]
  | cons kv rest ih =>
    obtain ⟨k₀, v₀⟩ := kv
    by_cases h₀ : k₀ = k
    · subst h₀
      have hne : (k₁ == k₀) = false := beq_eq_false_iff_ne.mpr h
      simp [dictInsert, List.lookup, hne]
    · simp [dictInsert, h₀, List.lookup, ih]

theorem EssenceStore.read_thread_write_thread (st : EssenceStore) (tid : String)
    (msgs : List Msg) : (st.write_thread tid msgs).read_thread tid = msgs := by
  simp [EssenceStore.read_thread, EssenceStore.write_thread, dictInsert_lookup_self]

theorem EssenceStore.read_thread_write_thread_ne (st : EssenceStore) (tid tid₁ : String)
    (msgs : List Msg) (h : tid₁ ≠ tid) :
    (st.write_thread tid msgs).read_thread tid₁ = st.read_thread tid₁ := by
  simp [EssenceStore.read_thread, EssenceStore.write_thread, dictInsert_lookup_ne _ _ _ _ h]

theorem EssenceStore.read_thread_append_to_thread (st : EssenceStore) (tid : String)
    (m : Msg) : (st.append_to_thread tid m).read_thread tid = st.read_thread tid ++ [m] := by
  simp [EssenceStore.append_to_thread, EssenceStore.read_thread_write_thread]

theorem admittedStatus_ne_rejected (calcM : EssenceStore → ℚ) (st : EssenceStore)
    (d : String) : admittedStatus calcM st d ≠ "rejected" := by
  unfold admittedStatus
  split_ifs <;> decide

theorem admissionRuleStatus_pass (calcM : EssenceStore → ℚ) (st : EssenceStore) (d : String)
    (hb : senderBlocked st d = false) (hd : st.get_mood ≠ "dnd") :
    admissionRuleStatus (senderBlocked st d) st.get_mood st.get_auto_approve
      (senderTrust st d) (calcM st) (st.read_budget.autonomy_threshold.getD (3/5))
      = admittedStatus calcM st d := by
  rw [hb]
  unfold admissionRuleStatus admittedStatus
  simp [hd]

/-- C1: for every inbound message admitted by `enqueue_inbound`, the
assigned status is decided by the first matching rule of the cascade
(blocked ⇒ rejected and stop; dnd ⇒ rejected and stop; auto-approve flag ⇒
auto_approved; available with trust ≥ 0.3 ⇒ auto_approved; moderate with
maturity ≥ the autonomy threshold (default 0.6) and trust ≥ 0.5 ⇒
auto_approved else pending_human_review; anything else ⇒
pending_human_review); in the two rejection cases the message is persisted
with status rejected, a `rejected` event is emitted, and processing stops
(nothing reaches the pending map or the inbound channel). -/
theorem C1_enqueue_inbound_first_matching_rule (calcM : EssenceStore → ℚ)
    (q : MessageQueue) (message : Msg) :
    (q.enqueue_inbound calcM message).store.read_thread message.thread_id
        = q.store.read_thread message.thread_id ++
          [{ message with status := (admissionRuleStatus
              (senderBlocked q.store message.from_did) q.store.get_mood
              q.store.get_auto_approve (senderTrust q.store message.from_did)
              (calcM q.store) (q.store.read_budget.autonomy_threshold.getD (3/5))) }] ∧
    (q.enqueue_inbound calcM message).events
        = q.events ++
          [if senderBlocked q.store message.from_did = true ∨ q.store.get_mood = "dnd"
           then Event.rejected message.thread_id
           else Event.inbound_message { message with
                  status := admittedStatus calcM q.store message.from_did }] ∧
    (q.enqueue_inbound calcM message).pending
        = (if senderBlocked q.store message.from_did = true ∨ q.store.get_mood = "dnd"
           then q.pending
           else dictInsert message.thread_id
                  { message with status := admittedStatus calcM q.store message.from_did }
                  q.pending) ∧
    (q.enqueue_inbound calcM message).inbound
        = (if senderBlocked q.store message.from_did = true ∨ q.store.get_mood = "dnd"
           then q.inbound
           else q.inbound ++ [{ message with
                  status := admittedStatus calcM q.store message.from_did }]) := by
  by_cases hb : senderBlocked q.store message.from_did
  · simp [MessageQueue.enqueue_inbound, hb, admissionRuleStatus,
      EssenceStore.read_thread_append_to_thread]
  · by_cases hd : q.store.get_mood = "dnd"
    · simp [MessageQueue.enqueue_inbound, hb, hd, admissionRuleStatus,
        EssenceStore.read_thread_append_to_thread]
    · have hb₁ : senderBlocked q.store message.from_did = false := by simpa using hb
      have hpass := admissionRuleStatus_pass calcM q.store message.from_did hb₁ hd
      rw [hb₁] at hpass
      simp [MessageQueue.enqueue_inbound, hb₁, hd, hpass,
        EssenceStore.read_thread_append_to_thread]

/-- C2: `read_budget` and `is_over_budget` never apply a monthly reset.
On the budget the claim (and the repo's own test `test_budget_monthly_reset`)
exercises — `used_tokens = 999999`, `monthly_limit_tokens = 500000`,
`last_reset` in a past month — `is_over_budget` reports `true` (the claim
demands `false`) and a subsequent read still shows the old counters
instead of zeros: the code contains no reset path at all. -/
theorem C2_no_monthly_reset_on_read :
    staleBudgetStore.is_over_budget = true ∧
    staleBudgetStore.read_budget.used_tokens = some 999999 ∧
    staleBudgetStore.read_budget.calls_total = some 100 := by
  refine ⟨?_, rfl, rfl⟩
  decide

/-- C6: the `MessageStatus` enum of `src/esence/protocol/message.py` has
no member whose value is `"auto_approved"`, although the admission cascade
assigns exactly that status whenever the auto-approve flag is set (and
`node.py` line 256 and the test suite reference `MessageStatus.AUTO_APPROVED`). -/
theorem C6_auto_approved_not_representable :
    (∀ s : MessageStatus, s.value ≠ "auto_approved") ∧
    admittedStatus (fun _ => 0) { auto_approve := true } "did:wba:host:name"
      = "auto_approved" := by
  constructor
  · intro s
    cases s <;> decide
  · rfl

/-- C3 counterexample: Python's `$` also matches just before one trailing
newline, so a fresh, well-signed message whose `from_did` is
`"did:wba:host:name\n"` — a string that does not match the claim's
identifier regex as written — passes the format check and
`receive_message` returns `valid = true`. -/
theorem C3_counterexample :
    receive_message_valid (fun _ => true) 0
      { from_did := "did:wba:host:name\n", timestamp := some 0, signature := some "c2ln" }
      = true ∧
    specDidRegexMatch "did:wba:host:name\n" = false := by
  exact ⟨rfl, rfl⟩

/-- C3 (amended): `receive_message` returns `valid = false` whenever
`from_did` fails the code's `_DID_RE.match` — the claim's regex up to
Python's trailing-newline allowance for `$` — or the timestamp differs
from the current time by more than 300 seconds, or the signature is
missing/empty, regardless of what the resolution-and-verify step would
say; without the dev flag such a message is not admitted by
`POST /anp/message`.  (An identifier consisting of the regex body plus a
single trailing newline is accepted by the program although it fails the
regex as written.) -/
theorem C3_amended_receive_message_rejects_invalid (verify_remote : TransportMsg → Bool)
    (now : Int) (m : TransportMsg)
    (h : didRegexMatch m.from_did = false ∨
         (∃ t, m.timestamp = some t ∧ 300 < (now - t).natAbs) ∨
         m.signature.getD "" = "") :
    receive_message_valid verify_remote now m = false ∧
    receive_anp_message_admits false (receive_message_valid verify_remote now m)
      = false := by
  have hv : receive_message_valid verify_remote now m = false := by
    unfold receive_message_valid
    by_cases hr : didRegexMatch m.from_did
    · simp only [hr, Bool.not_true, if_false]
      rcases h with h | ⟨t, ht, hstale⟩ | hsig
      · rw [h] at hr
        exact absurd hr (by decide)
      · rw [ht]
        simp [hstale]
      · cases hts : m.timestamp with
        | none => simp
        | some t => simp [hsig, ite_self]
    · simp [hr]
  exact ⟨hv, by simp [receive_anp_message_admits, hv]⟩

/-- C3 witness: a well-signed message (remote verification constantly
succeeding) whose timestamp lies 10 minutes (600 s) in the past is
invalid and is not admitted (amended C3 instantiated at the stale
disjunct). -/
theorem C3_witness :
    receive_message_valid (fun _ => true) 600
      { from_did := "did:wba:localhost%3A7777:node0", timestamp := some 0, signature := some "c2ln" }
      = false ∧
    receive_anp_message_admits false
      (receive_message_valid (fun _ => true) 600
        { from_did := "did:wba:localhost%3A7777:node0", timestamp := some 0, signature := some "c2ln" })
      = false :=
  C3_amended_receive_message_rejects_invalid (fun _ => true) 600
    { from_did := "did:wba:localhost%3A7777:node0", timestamp := some 0, signature := some "c2ln" }
    (Or.inr (Or.inl ⟨0, rfl, by decide⟩))

theorem b64Sextet_b64Char : ∀ n < 64, b64Sextet (b64Char n) = some n := by
  decide

theorem b64DecodeChars_b64EncodeBytes :
    ∀ data : List Nat, (∀ b ∈ data, b < 256) →
      b64DecodeChars (b64EncodeBytes data) = some data := by
  intro data
  induction data using b64EncodeBytes.induct with
  | case1 =>
    intro _
    rfl
  | case2 b1 =>
    intro hb
    have h1 : b1 < 256 := hb b1 (by simp)
    simp only [b64EncodeBytes, b64DecodeChars]
    rw [b64Sextet_b64Char _ (by omega), b64Sextet_b64Char _ (by omega)]
    simp
    omega
  | case3 b1 b2 =>
    intro hb
    have h1 : b1 < 256 := hb b1 (by simp)
    have h2 : b2 < 256 := hb b2 (by simp)
    simp only [b64EncodeBytes, b64DecodeChars]
    rw [b64Sextet_b64Char _ (by omega), b64Sextet_b64Char _ (by omega),
      b64Sextet_b64Char _ (by omega)]
    simp
    omega
  | case4 b1 b2 b3 rest ih =>
    intro hb
    have h1 : b1 < 256 := hb b1 (by simp)
    have h2 : b2 < 256 := hb b2 (by simp)
    have h3 : b3 < 256 := hb b3 (by simp)
    have hrest : ∀ b ∈ rest, b < 256 := fun b hbr => hb b (by simp [hbr])
    simp only [b64EncodeBytes, b64DecodeChars]
    rw [b64Sextet_b64Char _ (by omega), b64Sextet_b64Char _ (by omega),
      b64Sextet_b64Char _ (by omega), b64Sextet_b64Char _ (by omega), ih hrest]
    simp
    omega

theorem b64urlDecode_b64url (data : List Nat) (h : ∀ b ∈ data, b < 256) :
    b64urlDecode (b64url data) = some data := by
  unfold b64urlDecode b64url
  exact b64DecodeChars_b64EncodeBytes data h

theorem char_toNat_lt (c : Char) : c.toNat < 1114112 := by
  rcases c.valid with h | ⟨h1, h2⟩
  · exact Nat.lt_trans h (by norm_num)
  · exact h2

theorem utf8EncodeChar_lt (c : Char) : ∀ b ∈ utf8EncodeChar c, b < 256 := by
  intro b hb
  have hc := char_toNat_lt c
  unfold utf8EncodeChar at hb
  dsimp only at hb
  split_ifs at hb with h1 h2 h3
  · simp at hb
    omega
  · simp at hb
    rcases hb with rfl | rfl <;> omega
  · simp at hb
    rcases hb with rfl | rfl | rfl <;> omega
  · simp at hb
    rcases hb with rfl | rfl | rfl | rfl <;> omega

theorem utf8Encode_lt (s : String) : ∀ b ∈ utf8Encode s, b < 256 := by
  intro b hb
  unfold utf8Encode at hb
  obtain ⟨bs, hbs, hb⟩ := List.mem_flatten.mp hb
  obtain ⟨c, _, rfl⟩ := List.mem_map.mp hbs
  exact utf8EncodeChar_lt c b hb

/-- C4: signing a message's canonical signable bytes with an identity's
private key and verifying with that identity's own published base64url
public key succeeds:
`verify_with_public_key(public_key_b64(i), signable_bytes(m), sign(i,
signable_bytes(m))) = true`, for every identity whose raw public key is a
genuine byte string. -/
theorem C4_sign_verify_roundtrip (i : Identity) (m : EsenceMessage)
    (h : ∀ b ∈ i.private_key.public_bytes, b < 256) :
    Identity.verify_with_public_key i.public_key_b64 m.signable_bytes
      (i.sign m.signable_bytes) = true := by
  have hdata : ∀ b ∈ m.signable_bytes, b < 256 := utf8Encode_lt _
  have hsig : ∀ b ∈ ed25519Sign i.private_key m.signable_bytes, b < 256 := by
    intro b hb
    unfold ed25519Sign at hb
    rcases List.mem_append.mp hb with hb | hb
    · exact h b hb
    · exact hdata b hb
  unfold Identity.verify_with_public_key Identity.sign Identity.public_key_b64
  rw [b64urlDecode_b64url _ h, b64urlDecode_b64url _ hsig]
  simp [ed25519Verify, ed25519Sign]

/-- C4 witness: the round trip evaluated at a concrete identity and a
concrete thread message. -/
theorem C4_witness :
    (∀ b ∈ sampleIdentity.private_key.public_bytes, b < 256) ∧
    Identity.verify_with_public_key sampleIdentity.public_key_b64
      sampleMessage.signable_bytes (sampleIdentity.sign sampleMessage.signable_bytes)
      = true :=
  ⟨by decide, C4_sign_verify_roundtrip sampleIdentity sampleMessage (by decide)⟩

theorem lookup_eq_none_of_not_mem_keys {β : Type} (k : String) (l : List (String × β))
    (h : k ∉ l.map Prod.fst) : l.lookup k = none := by
  induction l with
  | nil => rfl
  | cons kv rest ih =>
    obtain ⟨k₀, v₀⟩ := kv
    simp only [List.map_cons, List.mem_cons, not_or] at h
    have hne : (k == k₀) = false := beq_eq_false_iff_ne.mpr h.1
    simp [List.lookup, hne, ih h.2]

theorem dictErase_lookup_self {β : Type} (k : String) (l : List (String × β))
    (h : (l.map Prod.fst).Nodup) : (dictErase k l).lookup k = none := by
  induction l with
  | nil => rfl
  | cons kv rest ih =>
    obtain ⟨k₀, v₀⟩ := kv
    simp only [List.map_cons, List.nodup_cons] at h
    by_cases hk : k₀ = k
    · subst hk
      simp only [dictErase, if_pos rfl]
      exact lookup_eq_none_of_not_mem_keys k₀ rest h.1
    · have hne : (k == k₀) = false := beq_eq_false_iff_ne.mpr (Ne.symm hk)
      simp [dictErase, hk, List.lookup, hne, ih h.2]

theorem approve_spec (now : String) (q : MessageQueue) (tid : String)
    (edited : Option String) (m : Msg)
    (hm : q.pending.lookup tid = some m)
    (hkeys : (q.pending.map Prod.fst).Nodup)
    (hid : m.thread_id = tid) :
    (MessageQueue.approve now q tid edited).1 = some (approvedMessage m edited) ∧
    (MessageQueue.approve now q tid edited).2.store.read_thread tid
      = (q.store.read_thread tid).map
          (fun e => if e.thread_id = tid then { e with status := "approved" } else e)
        ++ [approvedMessage m edited] ∧
    (MessageQueue.approve now q tid edited).2.store.corrections
      = q.store.corrections ++
        (if m.proposed_reply ≠ "" then [approvalCorrection now tid m edited] else []) ∧
    (MessageQueue.approve now q tid edited).2.outbound
      = q.outbound ++ [approvedMessage m edited] ∧
    (MessageQueue.approve now q tid edited).2.pending = dictErase tid q.pending ∧
    (MessageQueue.approve now q tid edited).2.events
      = q.events ++
        (if m.proposed_reply ≠ ""
         then [Event.correction_logged (q.store.corrections.length + 1) tid] else [])
        ++ [Event.status_changed tid "approved",
            Event.outbound_queued (approvedMessage m edited)] := by
  have herase : (dictErase tid q.pending).lookup tid = none :=
    dictErase_lookup_self tid q.pending hkeys
  have hmsg : Msg.mk tid
        ((if edited.getD m.proposed_reply = "" then m
          else { m with content := edited.getD m.proposed_reply }).from_did)
        ((if edited.getD m.proposed_reply = "" then m
          else { m with content := edited.getD m.proposed_reply }).content)
        "approved"
        ((if edited.getD m.proposed_reply = "" then m
          else { m with content := edited.getD m.proposed_reply }).proposed_reply)
      = approvedMessage m edited := by
    unfold approvedMessage approveFinalReply
    by_cases hfin : edited.getD m.proposed_reply = "" <;> simp [hfin, hid]
  have hthid : (if edited.getD m.proposed_reply = "" then m
        else { m with content := edited.getD m.proposed_reply }).thread_id = tid := by
    by_cases hfin : edited.getD m.proposed_reply = "" <;> simp [hfin, hid]
  by_cases hprop : m.proposed_reply ≠ ""
  · refine ⟨?_, ?_, ?_, ?_, ?_, ?_⟩ <;>
      simp [MessageQueue.approve, MessageQueue.mark_status, MessageQueue.enqueue_outbound,
        hm, herase, hprop, hmsg, hthid, approveFinalReply, approvalCorrection,
        EssenceStore.append_correction, EssenceStore.read_corrections,
        EssenceStore.append_to_thread, EssenceStore.read_thread_write_thread,
        EssenceStore.read_thread, EssenceStore.write_thread, dictInsert_lookup_self]
  · refine ⟨?_, ?_, ?_, ?_, ?_, ?_⟩ <;>
      simp [MessageQueue.approve, MessageQueue.mark_status, MessageQueue.enqueue_outbound,
        hm, herase, hprop, hmsg, hthid, approveFinalReply, approvalCorrection,
        EssenceStore.append_correction, EssenceStore.read_corrections,
        EssenceStore.append_to_thread, EssenceStore.read_thread_write_thread,
        EssenceStore.read_thread, EssenceStore.write_thread, dictInsert_lookup_self]

/-- C5 counterexample: on a pending thread with non-empty proposed reply,
`approve` called with the edited text `""` leaves the message content at
its old value (`"Hola"`) instead of setting it to the final reply `""`:
the content update is guarded by `if final_reply:`. -/
theorem C5_counterexample :
    ((MessageQueue.approve "2026-03-01T00:00:00+00:00" pendingQueue "t0" (some "")).1.map
        Msg.content = some "Hola") ∧
    ("" : String) ≠ "Hola" := by
  exact ⟨rfl, by decide⟩

/-- C5 (amended): `approve` on a thread that is not pending returns null
and changes nothing; on a pending thread with non-empty proposed reply it
appends exactly one correction record `{original, edited = final,
thread_id, from_did, timestamp}`, emits `correction_logged` with the new
length of the corrections log, sets the message content to the final
reply only when that reply is non-empty (an empty edited text leaves the
content unchanged), sets status approved, persists it, and pushes the
message to the outbound channel. -/
theorem C5_amended_approve (now : String) (q : MessageQueue) (tid : String)
    (edited : Option String) :
    (q.pending.lookup tid = none →
      MessageQueue.approve now q tid edited = (none, q)) ∧
    (∀ m, q.pending.lookup tid = some m → (q.pending.map Prod.fst).Nodup →
      m.thread_id = tid → m.proposed_reply ≠ "" →
      (MessageQueue.approve now q tid edited).1 = some (approvedMessage m edited) ∧
      (MessageQueue.approve now q tid edited).2.store.corrections
        = q.store.corrections ++ [approvalCorrection now tid m edited] ∧
      (MessageQueue.approve now q tid edited).2.events
        = q.events ++ [Event.correction_logged (q.store.corrections.length + 1) tid]
          ++ [Event.status_changed tid "approved",
              Event.outbound_queued (approvedMessage m edited)] ∧
      (MessageQueue.approve now q tid edited).2.outbound
        = q.outbound ++ [approvedMessage m edited] ∧
      (MessageQueue.approve now q tid edited).2.store.read_thread tid
        = (q.store.read_thread tid).map
            (fun e => if e.thread_id = tid then { e with status := "approved" } else e)
          ++ [approvedMessage m edited] ∧
      (MessageQueue.approve now q tid edited).2.pending = dictErase tid q.pending) := by
  constructor
  · intro hnone
    unfold MessageQueue.approve
    rw [hnone]
  · intro m hm hkeys hid hprop
    obtain ⟨h1, h2, h3, h4, h5, h6⟩ := approve_spec now q tid edited m hm hkeys hid
    rw [if_pos hprop] at h3 h6
    exact ⟨h1, h3, h6, h4, h2, h5⟩

/-- C5 witness: the amended approve behavior evaluated on a concrete
pending thread with an owner edit. -/
theorem C5_witness :
    (MessageQueue.approve "2026-03-01T00:00:00+00:00" pendingQueue "t0"
        (some "editada")).1 = some (approvedMessage pendingMsg (some "editada")) ∧
    (MessageQueue.approve "2026-03-01T00:00:00+00:00" pendingQueue "t0"
        (some "editada")).2.store.corrections
      = pendingQueue.store.corrections ++
        [approvalCorrection "2026-03-01T00:00:00+00:00" "t0" pendingMsg (some "editada")] ∧
    (MessageQueue.approve "2026-03-01T00:00:00+00:00" pendingQueue "t0"
        (some "editada")).2.events
      = pendingQueue.events ++
        [Event.correction_logged (pendingQueue.store.corrections.length + 1) "t0"]
        ++ [Event.status_changed "t0" "approved",
            Event.outbound_queued (approvedMessage pendingMsg (some "editada"))] ∧
    (MessageQueue.approve "2026-03-01T00:00:00+00:00" pendingQueue "t0"
        (some "editada")).2.outbound
      = pendingQueue.outbound ++ [approvedMessage pendingMsg (some "editada")] ∧
    (MessageQueue.approve "2026-03-01T00:00:00+00:00" pendingQueue "t0"
        (some "editada")).2.store.read_thread "t0"
      = (pendingQueue.store.read_thread "t0").map
          (fun e => if e.thread_id = "t0" then { e with status := "approved" } else e)
        ++ [approvedMessage pendingMsg (some "editada")] ∧
    (MessageQueue.approve "2026-03-01T00:00:00+00:00" pendingQueue "t0"
        (some "editada")).2.pending = dictErase "t0" pendingQueue.pending :=
  (C5_amended_approve "2026-03-01T00:00:00+00:00" pendingQueue "t0" (some "editada")).2
    pendingMsg (by decide) (by decide) (by decide) (by decide)

theorem peek_pending_status (q : MessageQueue) :
    ∀ p ∈ q.peek_pending, p.status = "pending_human_review" := by
  intro p hp
  unfold MessageQueue.peek_pending at hp
  rw [List.mem_filter] at hp
  simpa using hp.2

/-- C7 counterexample: with the global auto-approve flag set, the admitted
message is classified `auto_approved` and is nevertheless inserted into
the pending map (queue.py line 108 runs unconditionally). -/
theorem C7_counterexample :
    (autoApproveQueue.enqueue_inbound (fun _ => 0) inboundMsg).pending.lookup "t0"
      = some { inboundMsg with status := "auto_approved" } ∧
    ({ inboundMsg with status := "auto_approved" } : Msg).status
      ≠ "pending_human_review" := by
  exact ⟨rfl, by decide⟩

/-- C7 (amended): every message that passes the blocked/dnd gates is
inserted into the pending map regardless of its classified status —
`auto_approved` messages included; only rejected messages are kept out;
the status filter lives solely in `peek_pending`, which surfaces only
entries with status `pending_human_review`. -/
theorem C7_amended_pending_map (calcM : EssenceStore → ℚ) (q : MessageQueue)
    (message : Msg) :
    (q.enqueue_inbound calcM message).pending
      = (if senderBlocked q.store message.from_did = true ∨ q.store.get_mood = "dnd"
         then q.pending
         else dictInsert message.thread_id
                { message with status := admittedStatus calcM q.store message.from_did }
                q.pending) ∧
    ∀ p ∈ (q.enqueue_inbound calcM message).peek_pending,
      p.status = "pending_human_review" := by
  refine ⟨?_, peek_pending_status _⟩
  by_cases hb : senderBlocked q.store message.from_did
  · simp [MessageQueue.enqueue_inbound, hb]
  · by_cases hd : q.store.get_mood = "dnd"
    · simp [MessageQueue.enqueue_inbound, hb, hd]
    · simp [MessageQueue.enqueue_inbound, hb, hd]

/-- C7 witness: with an absent owner a plain inbound message is classified
pending and appears in the pending map; the filter conjunct instantiated
at that entry. -/
theorem C7_witness :
    (absentMoodQueue.enqueue_inbound (fun _ => 0) inboundMsg).pending
      = (if senderBlocked absentMoodQueue.store inboundMsg.from_did = true ∨
            absentMoodQueue.store.get_mood = "dnd"
         then absentMoodQueue.pending
         else dictInsert inboundMsg.thread_id
                { inboundMsg with
                  status := admittedStatus (fun _ => 0) absentMoodQueue.store inboundMsg.from_did }
                absentMoodQueue.pending) ∧
    ({ inboundMsg with status := "pending_human_review" } : Msg).status
      = "pending_human_review" := by
  have h := C7_amended_pending_map (fun _ => 0) absentMoodQueue inboundMsg
  refine ⟨h.1, h.2 _ ?_⟩
  decide

theorem enqueue_inbound_read_thread (calcM : EssenceStore → ℚ) (q : MessageQueue)
    (message : Msg) :
    (q.enqueue_inbound calcM message).store.read_thread message.thread_id
      = q.store.read_thread message.thread_id ++
        [{ message with status :=
            if senderBlocked q.store message.from_did = true ∨ q.store.get_mood = "dnd"
            then "rejected" else admittedStatus calcM q.store message.from_did }] := by
  by_cases hb : senderBlocked q.store message.from_did
  · simp [MessageQueue.enqueue_inbound, hb, EssenceStore.read_thread_append_to_thread]
  · by_cases hd : q.store.get_mood = "dnd"
    · simp [MessageQueue.enqueue_inbound, hb, hd, EssenceStore.read_thread_append_to_thread]
    · simp [MessageQueue.enqueue_inbound, hb, hd, EssenceStore.read_thread_append_to_thread]

/-- C9 counterexample: approving thread `t0` overwrites the status of the
already-persisted entry (from `pending_human_review` to `approved`), so
an earlier entry does not stay unchanged. -/
theorem C9_counterexample :
    ((MessageQueue.approve "2026-03-01T00:00:00+00:00" pendingQueue "t0" none).2.store.read_thread
        "t0").head? = some { pendingMsg with status := "approved" } ∧
    pendingMsg.status ≠ "approved" :=
  ⟨rfl, by decide⟩

/-- C9 (amended): admission only appends to a thread file (the previous
entries stay a prefix), and approval appends the approved outgoing copy —
but approval additionally overwrites the status field of every
already-persisted entry of that thread with `approved` (via
`mark_status`); the content of every earlier entry is left unchanged. -/
theorem C9_amended_persisted_entries (now : String) (q : MessageQueue) (tid : String)
    (edited : Option String) (calcM : EssenceStore → ℚ) (message m : Msg)
    (hm : q.pending.lookup tid = some m)
    (hkeys : (q.pending.map Prod.fst).Nodup)
    (hid : m.thread_id = tid) :
    q.store.read_thread message.thread_id <+:
      (q.enqueue_inbound calcM message).store.read_thread message.thread_id ∧
    (MessageQueue.approve now q tid edited).2.store.read_thread tid
      = (q.store.read_thread tid).map
          (fun e => if e.thread_id = tid then { e with status := "approved" } else e)
        ++ [approvedMessage m edited] ∧
    ((MessageQueue.approve now q tid edited).2.store.read_thread tid).map Msg.content
      = (q.store.read_thread tid).map Msg.content
        ++ [(approvedMessage m edited).content] := by
  obtain ⟨_, h2, _, _, _, _⟩ := approve_spec now q tid edited m hm hkeys hid
  refine ⟨?_, h2, ?_⟩
  · rw [enqueue_inbound_read_thread]
    exact List.prefix_append _ _
  · rw [h2, List.map_append, List.map_map]
    congr 1
    apply List.map_congr_left
    intro e _
    by_cases he : e.thread_id = tid <;> simp [he]

/-- C9 witness: the amended behavior on the concrete pending thread. -/
theorem C9_witness :
    pendingQueue.store.read_thread inboundMsg.thread_id <+:
      (pendingQueue.enqueue_inbound (fun _ => 0) inboundMsg).store.read_thread
        inboundMsg.thread_id ∧
    (MessageQueue.approve "2026-03-01T00:00:00+00:00" pendingQueue "t0"
        none).2.store.read_thread "t0"
      = (pendingQueue.store.read_thread "t0").map
          (fun e => if e.thread_id = "t0" then { e with status := "approved" } else e)
        ++ [approvedMessage pendingMsg none] ∧
    ((MessageQueue.approve "2026-03-01T00:00:00+00:00" pendingQueue "t0"
        none).2.store.read_thread "t0").map Msg.content
      = (pendingQueue.store.read_thread "t0").map Msg.content
        ++ [(approvedMessage pendingMsg none).content] :=
  C9_amended_persisted_entries "2026-03-01T00:00:00+00:00" pendingQueue "t0" none
    (fun _ => 0) inboundMsg pendingMsg (by decide) (by decide) (by decide)

/-- C10 counterexample: approving with an empty edited reply is still a
successful approve and still appends exactly one entry, but the
re-appended approved copy keeps the old content `"Hola"` instead of the
(empty) approved reply, so the claim's "content is the approved reply"
fails there. -/
theorem C10_counterexample :
    ((MessageQueue.approve "2026-03-01T00:00:00+00:00" pendingQueue "t0"
        (some "")).2.store.read_thread "t0").length
      = (pendingQueue.store.read_thread "t0").length + 1 ∧
    (((MessageQueue.approve "2026-03-01T00:00:00+00:00" pendingQueue "t0"
        (some "")).2.store.read_thread "t0").getLast?.map Msg.content = some "Hola") ∧
    ("Hola" : String) ≠ "" := by
  exact ⟨rfl, rfl, by decide⟩

/-- C10 (amended): after every successful approve the thread file holds
exactly one more entry than immediately before the call — `mark_status`
rewrites the existing entries in place and `enqueue_outbound` re-appends
the approved message — and the approved copy is the last entry; its
content is the approved reply when that reply is non-empty, else the
previously stored content is kept. -/
theorem C10_amended_approve_reappends (now : String) (q : MessageQueue) (tid : String)
    (edited : Option String) (m : Msg)
    (hm : q.pending.lookup tid = some m)
    (hkeys : (q.pending.map Prod.fst).Nodup)
    (hid : m.thread_id = tid) :
    ((MessageQueue.approve now q tid edited).2.store.read_thread tid).length
      = (q.store.read_thread tid).length + 1 ∧
    ((MessageQueue.approve now q tid edited).2.store.read_thread tid).getLast?
      = some (approvedMessage m edited) ∧
    (approvedMessage m edited).content
      = (if approveFinalReply m edited = "" then m.content
         else approveFinalReply m edited) ∧
    (approvedMessage m edited).status = "approved" := by
  obtain ⟨_, h2, _, _, _, _⟩ := approve_spec now q tid edited m hm hkeys hid
  refine ⟨?_, ?_, ?_, ?_⟩
  · rw [h2]
    simp
  · rw [h2]
    simp
  · unfold approvedMessage
    by_cases hfin : approveFinalReply m edited = "" <;> simp [hfin]
  · unfold approvedMessage
    by_cases hfin : approveFinalReply m edited = "" <;> simp [hfin]

/-- C10 witness: the duplication evaluated on the concrete pending thread
(an unedited approval of the proposed reply). -/
theorem C10_witness :
    ((MessageQueue.approve "2026-03-01T00:00:00+00:00" pendingQueue "t0"
        none).2.store.read_thread "t0").length
      = (pendingQueue.store.read_thread "t0").length + 1 ∧
    ((MessageQueue.approve "2026-03-01T00:00:00+00:00" pendingQueue "t0"
        none).2.store.read_thread "t0").getLast?
      = some (approvedMessage pendingMsg none) ∧
    (approvedMessage pendingMsg none).content
      = (if approveFinalReply pendingMsg none = "" then pendingMsg.content
         else approveFinalReply pendingMsg none) ∧
    (approvedMessage pendingMsg none).status = "approved" :=
  C10_amended_approve_reappends "2026-03-01T00:00:00+00:00" pendingQueue "t0" none
    pendingMsg (by decide) (by decide) (by decide)

theorem clamp01_nonneg (x : ℚ) : 0 ≤ max 0 (min 1 x) :=
  le_max_left 0 _

theorem clamp01_le_one (x : ℚ) : max 0 (min 1 x) ≤ 1 :=
  max_le zero_le_one (min_le_left 1 x)

theorem trustWF_upsertPeerList (peer : Peer) (l : List Peer)
    (hl : trustWF l) (hp : ∀ t, peer.trust_score = some t → 0 ≤ t ∧ t ≤ 1) :
    trustWF (upsertPeerList peer l) := by
  induction l with
  | nil =>
    intro x hx t ht
    simp [upsertPeerList] at hx
    subst hx
    exact hp t ht
  | cons q rest ih =>
    have hq : ∀ t, q.trust_score = some t → 0 ≤ t ∧ t ≤ 1 := hl q (by simp)
    have hrest : trustWF rest := fun a ha => hl a (by simp [ha])
    intro x hx t ht
    by_cases h : q.did = peer.did
    · rw [upsertPeerList, if_pos h] at hx
      rcases List.mem_cons.mp hx with rfl | hx
      · exact hp t ht
      · exact hrest x hx t ht
    · rw [upsertPeerList, if_neg h] at hx
      rcases List.mem_cons.mp hx with rfl | hx
      · exact hq t ht
      · exact ih hrest x hx t ht

theorem trustWF_applyUpdate (p : Peer) (u : PeerUpdate) (now : String)
    (hp : ∀ t, p.trust_score = some t → 0 ≤ t ∧ t ≤ 1)
    (hu : ∀ t, u.trust_score = some t → 0 ≤ t ∧ t ≤ 1) :
    ∀ t, (p.applyUpdate u now).trust_score = some t → 0 ≤ t ∧ t ≤ 1 := by
  intro t ht
  unfold Peer.applyUpdate at ht
  cases hu₀ : u.trust_score with
  | some v =>
    rw [hu₀] at ht
    simp at ht
    subst ht
    exact hu v hu₀
  | none =>
    rw [hu₀] at ht
    simp at ht
    exact hp t ht

theorem trustWF_add_or_update (now : String) (st : EssenceStore) (did : String)
    (u : PeerUpdate) (hst : trustWF st.peers)
    (hu : ∀ t, u.trust_score = some t → 0 ≤ t ∧ t ≤ 1) :
    trustWF (PeerManager.add_or_update now st did u).2.peers := by
  unfold PeerManager.add_or_update
  cases hf : PeerManager.get_peer st did with
  | some existing =>
    simp only [hf]
    have hmem : existing ∈ st.peers :=
      List.mem_of_find?_eq_some hf
    exact trustWF_upsertPeerList _ _ hst
      (trustWF_applyUpdate existing u now (hst existing hmem) hu)
  | none =>
    simp only [hf]
    refine trustWF_upsertPeerList _ _ hst (trustWF_applyUpdate _ u now ?_ hu)
    intro t ht
    simp at ht
    subst ht
    norm_num

theorem trustWF_adjust_trust (now : String) (st : EssenceStore) (did : String)
    (delta : ℚ) (hst : trustWF st.peers) :
    trustWF (PeerManager.adjust_trust now st did delta).1.peers := by
  unfold PeerManager.adjust_trust
  cases hf : PeerManager.get_peer st did with
  | some p =>
    simp only [hf]
    refine trustWF_add_or_update now st did _ hst ?_
    intro t ht
    simp at ht
    subst ht
    exact ⟨clamp01_nonneg _, clamp01_le_one _⟩
  | none =>
    simp only [hf]
    refine trustWF_add_or_update now _ did _ ?_ ?_
    · exact trustWF_add_or_update now st did {} hst (by simp)
    · intro t ht
      simp at ht
      subst ht
      exact ⟨clamp01_nonneg _, clamp01_le_one _⟩

theorem trustWF_record_interaction (now : String) (st : EssenceStore) (did : String)
    (successful : Bool) (hst : trustWF st.peers) :
    trustWF (PeerManager.record_interaction now st did successful).peers := by
  unfold PeerManager.record_interaction
  cases hf : PeerManager.get_peer st did with
  | some p =>
    simp only [hf]
    refine trustWF_add_or_update now st did _ hst ?_
    intro t ht
    simp at ht
    subst ht
    exact ⟨clamp01_nonneg _, clamp01_le_one _⟩
  | none =>
    simp only [hf]
    refine trustWF_add_or_update now _ did _ ?_ ?_
    · exact trustWF_add_or_update now st did {} hst (by simp)
    · intro t ht
      simp at ht
      subst ht
      exact ⟨clamp01_nonneg _, clamp01_le_one _⟩

theorem trustWF_applyPeerOp (st : EssenceStore) (op : PeerOp)
    (hst : trustWF st.peers) : trustWF (applyPeerOp st op).peers := by
  cases op with
  | record did successful now => exact trustWF_record_interaction now st did successful hst
  | adjust did delta now => exact trustWF_adjust_trust now st did delta hst

theorem find?_upsertPeerList (peer : Peer) (l : List Peer) :
    (upsertPeerList peer l).find? (fun p => p.did == peer.did) = some peer := by
  induction l with
  | nil => simp [upsertPeerList, List.find?]
  | cons q rest ih =>
    by_cases h : q.did = peer.did
    · simp [upsertPeerList, h, List.find?]
    · have hne : (q.did == peer.did) = false := beq_eq_false_iff_ne.mpr h
      simp [upsertPeerList, h, List.find?, hne, ih]

theorem get_peer_add_or_update (now : String) (st : EssenceStore) (did : String)
    (u : PeerUpdate) (p : Peer) (hf : PeerManager.get_peer st did = some p) :
    PeerManager.get_peer (PeerManager.add_or_update now st did u).2 did
      = some (p.applyUpdate u now) := by
  have hdid : p.did = did := by
    have hpred := List.find?_some hf
    simpa using hpred
  have hdid₂ : (p.applyUpdate u now).did = did := by
    simp [Peer.applyUpdate, hdid]
  unfold PeerManager.add_or_update
  rw [hf]
  unfold PeerManager.get_peer EssenceStore.read_peers EssenceStore.upsert_peer
  rw [show did = (p.applyUpdate u now).did from hdid₂.symm]
  exact find?_upsertPeerList _ _

theorem trustWF_applyPeerOps :
    ∀ (ops : List PeerOp) (st : EssenceStore),
      trustWF st.peers → trustWF (applyPeerOps st ops).peers := by
  intro ops
  induction ops with
  | nil =>
    intro st h
    exact h
  | cons op rest ih =>
    intro st h
    have hstep := trustWF_applyPeerOp st op h
    simpa [applyPeerOps, List.foldl] using ih (applyPeerOp st op) hstep

/-- C8: under any finite sequence of `record_interaction` / `adjust_trust`
calls every stored trust score stays in [0, 1]; moreover each
`record_interaction` on a known peer stores exactly the old trust plus
+0.02 (success) or -0.05 (failure) clamped to [0, 1], increments the
message counter by one, and stamps `last_seen`. -/
theorem C8_trust_stays_clamped (st : EssenceStore) (ops : List PeerOp)
    (h : trustWF st.peers) :
    trustWF (applyPeerOps st ops).peers ∧
    ∀ did successful now p, PeerManager.get_peer st did = some p →
      PeerManager.get_peer (PeerManager.record_interaction now st did successful) did
        = some (p.applyUpdate
            { message_count := some (p.message_count.getD 0 + 1),
              last_seen := some now,
              trust_score := some (max 0 (min 1 (p.trust_score.getD (1/2) +
                (if successful then 1/50 else -(1/20))))) } now) := by
  constructor
  · exact trustWF_applyPeerOps ops st h
  · intro did successful now p hf
    unfold PeerManager.record_interaction
    rw [hf]
    exact get_peer_add_or_update now st did _ p hf

/-- C8 witness: one successful interaction recorded against a concrete
one-peer table. -/
theorem C8_witness :
    trustWF (applyPeerOps trustedStore
      [PeerOp.record "did:wba:localhost:trusted" true "2026-02-21T00:00:00+00:00"]).peers ∧
    PeerManager.get_peer
        (PeerManager.record_interaction "2026-02-21T00:00:00+00:00" trustedStore
          "did:wba:localhost:trusted" true) "did:wba:localhost:trusted"
      = some (trustedPeer.applyUpdate
          { message_count := some (trustedPeer.message_count.getD 0 + 1),
            last_seen := some "2026-02-21T00:00:00+00:00",
            trust_score := some (max 0 (min 1 (trustedPeer.trust_score.getD (1/2) +
              (if true then 1/50 else -(1/20))))) } "2026-02-21T00:00:00+00:00") := by
  have h := C8_trust_stays_clamped trustedStore
    [PeerOp.record "did:wba:localhost:trusted" true "2026-02-21T00:00:00+00:00"]
    (by
      intro p hp t ht
      simp [trustedStore] at hp
      subst hp
      simp [trustedPeer] at ht)
  exact ⟨h.1, h.2 "did:wba:localhost:trusted" true "2026-02-21T00:00:00+00:00"
    trustedPeer rfl⟩
